import Mathlib

/-!
Verification development for the parquet2 file-metadata bridge
(`src/metadata/file_metadata.rs`): the conversion between the wire
(thrift) footer and the native `FileMetaData`, the per-column order
assignment `parse_column_orders`, and the `column_order` accessor.

Collaborator types that the source file uses but does not define
(`SchemaDescriptor`, `RowGroupMetaData`, `ColumnOrder`, `SortOrder`,
`get_sort_order`, the thrift structures and the error type) are modelled
from the specification, as noted on each definition.  The native
`num_rows` field is a Rust `usize`, modelled as `Nat` with the usual
64-bit width where a cast makes the width observable.
-/

/-- Modelled from the spec: the physical type tag of a leaf column's
primitive-type descriptor (defined by the storage format, outside src/). -/
inductive PhysicalType where
  | boolean
  | int32
  | int64
  | int96
  | float
  | double
  | byteArray
  | fixedLenByteArray (length : Nat)
deriving DecidableEq, Repr

/-- Modelled from the spec: the converted type tag (legacy logical
annotation) of a primitive-type descriptor (defined outside src/). -/
inductive ConvertedType where
  | utf8
  | int8
  | int16
  | int32
  | int64
  | uint8
  | uint16
  | uint32
  | uint64
  | date
  | json
deriving DecidableEq, Repr

/-- Modelled from the spec: the logical type tag of a primitive-type
descriptor (defined outside src/). -/
inductive LogicalType where
  | string
  | integer (bitWidth : Nat) (isSigned : Bool)
  | date
  | json
  | unknown
deriving DecidableEq, Repr

/-- Modelled from the spec (§3): the total-order classification consumed by
statistics comparisons; distinguishes signed-numeric,
unsigned/byte-lexicographic and undefined orderings. -/
inductive SortOrder where
  | signed
  | unsigned
  | undefined
deriving DecidableEq, Repr

/-- Modelled from the spec (§3): the per-column ordering classification,
a tagged variant `Undefined | TypeDefinedOrder(SortOrder)`
(defined in the repository's `column_order.rs`, outside src/). -/
inductive ColumnOrder where
  | Undefined
  | TypeDefinedOrder (order : SortOrder)
deriving DecidableEq, Repr

/-- Modelled from the spec (§4.1): the Sort Order Resolver, a pure total
function from the three type tags to one classification, with the
undefined classification as fallback for unhandled combinations
(defined in the repository's `metadata/sort.rs`, outside src/). -/
def get_sort_order (logical : Option LogicalType) (converted : Option ConvertedType)
    (physical : PhysicalType) : SortOrder :=
  match logical with
  | some (LogicalType.integer _ isSigned) =>
      if isSigned then SortOrder.signed else SortOrder.unsigned
  | some LogicalType.string => SortOrder.unsigned
  | some LogicalType.date => SortOrder.signed
  | some _ => SortOrder.undefined
  | none =>
    match converted with
    | some ConvertedType.utf8 => SortOrder.unsigned
    | some ConvertedType.int8 => SortOrder.signed
    | some ConvertedType.int16 => SortOrder.signed
    | some ConvertedType.int32 => SortOrder.signed
    | some ConvertedType.int64 => SortOrder.signed
    | some ConvertedType.uint8 => SortOrder.unsigned
    | some ConvertedType.uint16 => SortOrder.unsigned
    | some ConvertedType.uint32 => SortOrder.unsigned
    | some ConvertedType.uint64 => SortOrder.unsigned
    | some ConvertedType.date => SortOrder.signed
    | some _ => SortOrder.undefined
    | none =>
      match physical with
      | PhysicalType.boolean => SortOrder.unsigned
      | PhysicalType.int32 => SortOrder.signed
      | PhysicalType.int64 => SortOrder.signed
      | PhysicalType.int96 => SortOrder.undefined
      | PhysicalType.float => SortOrder.signed
      | PhysicalType.double => SortOrder.signed
      | PhysicalType.byteArray => SortOrder.unsigned
      | PhysicalType.fixedLenByteArray _ => SortOrder.unsigned

/-- Modelled from the spec: a leaf column's primitive-type descriptor,
carrying the three type tags consumed by the Sort Order Resolver. -/
structure PrimitiveType where
  logical_type : Option LogicalType
  converted_type : Option ConvertedType
  physical_type : PhysicalType
deriving DecidableEq, Repr

/-- Modelled from the spec: the descriptor of a leaf column, exposing its
primitive type (defined outside src/). -/
structure Descriptor where
  primitive_type : PrimitiveType
deriving DecidableEq, Repr

/-- Modelled from the spec: one leaf column as returned by the Schema
Descriptor's `columns()` (defined outside src/). -/
structure ColumnDescriptor where
  descriptor : Descriptor
deriving DecidableEq, Repr

/-- Modelled from the spec (§7): the error kinds surfaced by the
conversions (the repository's error type is outside src/). -/
inductive Error where
  | schemaResolution
  | rowGroupConversion
  | rowCountRange
deriving DecidableEq, Repr

/-- Modelled from the spec (§2): the Schema Descriptor collaborator.  Its
internal resolution of nested/repeated groups into flat leaf columns is
out of scope (§1), so the wire schema is modelled as the flat ordered
sequence of leaf primitive types that the resolution yields. -/
structure SchemaDescriptor where
  fields : List PrimitiveType
deriving DecidableEq, Repr

/-- Modelled from the spec (§2): `columns()`, the ordered sequence of leaf
column descriptors. -/
def SchemaDescriptor.columns (s : SchemaDescriptor) : List ColumnDescriptor :=
  s.fields.map (fun pt => ColumnDescriptor.mk (Descriptor.mk pt))

/-- Modelled from the spec (§2): `SchemaDescriptor::try_from_thrift`.
Structural failure concerns nested-group resolution, which is out of
scope (§1); on the flat model the resolution is deterministic. -/
def SchemaDescriptor.try_from_thrift (schema : List PrimitiveType) :
    Except Error SchemaDescriptor :=
  Except.ok (SchemaDescriptor.mk schema)

/-- Modelled from the spec (§2): `SchemaDescriptor::into_thrift`. -/
def SchemaDescriptor.into_thrift (s : SchemaDescriptor) : List PrimitiveType :=
  s.fields

/-- Modelled from the spec (§2): the wire (thrift) row group, carrying
per-row-group statistics/offsets. -/
structure RowGroup where
  num_rows : Int
  total_byte_size : Int
deriving DecidableEq, Repr

/-- Modelled from the spec (§2): the Row Group Metadata collaborator. -/
structure RowGroupMetaData where
  num_rows : Int
  total_byte_size : Int
deriving DecidableEq, Repr

/-- Modelled from the spec (§2): `RowGroupMetaData::try_from_thrift`.
Reconciliation of a wire row group against the schema is a collaborator's
concern, out of scope (§1); the fields are carried through. -/
def RowGroupMetaData.try_from_thrift (_schema_descr : SchemaDescriptor)
    (rg : RowGroup) : Except Error RowGroupMetaData :=
  Except.ok (RowGroupMetaData.mk rg.num_rows rg.total_byte_size)

/-- Modelled from the spec (§2): `RowGroupMetaData::into_thrift`. -/
def RowGroupMetaData.into_thrift (rg : RowGroupMetaData) : RowGroup :=
  RowGroup.mk rg.num_rows rg.total_byte_size

/-- `KeyValue`: a required key with an optional value
(re-exported by the source from the thrift format). -/
structure KeyValue where
  key : String
  value : Option String
deriving DecidableEq, Repr

/-- Modelled from the spec (§4.2, §9): the wire column-order tag
(`parquet_format_safe::ColumnOrder`, aliased `TColumnOrder` in the
source); the wire format defines only the type-defined kind. -/
inductive TColumnOrder where
  | TYPEORDER
deriving DecidableEq, Repr

/-- Modelled from the spec: a wire encryption-algorithm tag; never
populated by this core (§4.3). -/
inductive EncryptionAlgorithm where
  | AES_GCM_V1
  | AES_GCM_CTR_V1
deriving DecidableEq, Repr

/-- Modelled from the spec (§2, §6): the wire footer
`parquet_format_safe::FileMetaData` consumed and produced by the core. -/
structure TFileMetaData where
  version : Int
  schema : List PrimitiveType
  num_rows : Int
  row_groups : List RowGroup
  key_value_metadata : Option (List KeyValue)
  created_by : Option String
  column_orders : Option (List TColumnOrder)
  encryption_algorithm : Option EncryptionAlgorithm
  footer_signing_key_metadata : Option (List Nat)
deriving DecidableEq, Repr

/-- The native `FileMetaData` of `file_metadata.rs` (lines 65-94). -/
structure FileMetaData where
  version : Int
  num_rows : Nat
  created_by : Option String
  row_groups : List RowGroupMetaData
  key_value_metadata : Option (List KeyValue)
  schema_descr : SchemaDescriptor
  column_orders : Option (List ColumnOrder)
deriving DecidableEq, Repr

/-- The spec's §3 invariant on a native `FileMetaData`: when
`column_orders` is present its length equals the leaf-column count of
`schema_descr`. -/
def FileMetaData.valid (m : FileMetaData) : Prop :=
  match m.column_orders with
  | some l => l.length = m.schema_descr.columns.length
  | none => True

instance (m : FileMetaData) : Decidable m.valid := by
  unfold FileMetaData.valid
  cases m.column_orders <;> exact inferInstance

/-- `FileMetaData::column_order` (lines 109-114):
`self.column_orders.as_ref().map(|data| data[i]).unwrap_or(Undefined)`.
The vector indexing `data[i]` panics when `i` is out of bounds; the
panic is modelled as `none`, a normal return as `some`. -/
def FileMetaData.column_order (m : FileMetaData) (i : Nat) : Option ColumnOrder :=
  (m.column_orders.map (fun data => data[i]?)).getD (some ColumnOrder.Undefined)

/-- `parse_column_orders` (lines 162-181): zip the schema's leaf columns
with the wire order tags and classify each pair. -/
def parse_column_orders (orders : List TColumnOrder)
    (schema_descr : SchemaDescriptor) : List ColumnOrder :=
  (schema_descr.columns.zip orders).map (fun co =>
    match co.2 with
    | TColumnOrder.TYPEORDER =>
        ColumnOrder.TypeDefinedOrder (get_sort_order
          co.1.descriptor.primitive_type.logical_type
          co.1.descriptor.primitive_type.converted_type
          co.1.descriptor.primitive_type.physical_type))

/-- `FileMetaData::try_from_thrift` (lines 117-139).  The source converts
`metadata.num_rows` (wire `i64`) into the native `usize` with
`try_into()?`, which fails exactly on negative values. -/
def FileMetaData.try_from_thrift (metadata : TFileMetaData) :
    Except Error FileMetaData :=
  match SchemaDescriptor.try_from_thrift metadata.schema with
  | Except.error e => Except.error e
  | Except.ok schema_descr =>
    match metadata.row_groups.mapM
        (fun rg => RowGroupMetaData.try_from_thrift schema_descr rg) with
    | Except.error e => Except.error e
    | Except.ok row_groups =>
      let column_orders := metadata.column_orders.map
        (fun orders => parse_column_orders orders schema_descr)
      if metadata.num_rows < 0 then Except.error Error.rowCountRange
      else Except.ok (FileMetaData.mk metadata.version metadata.num_rows.toNat
        metadata.created_by row_groups metadata.key_value_metadata
        schema_descr column_orders)

/-- The Rust cast `self.num_rows as i64` applied to a `usize` on a 64-bit
platform: reduce modulo `2 ^ 64`, then reinterpret as a signed 64-bit
value. -/
def usize_as_i64 (n : Nat) : Int :=
  if n % 2 ^ 64 < 2 ^ 63 then ((n % 2 ^ 64 : Nat) : Int)
  else ((n % 2 ^ 64 : Nat) : Int) - 2 ^ 64

/-- `FileMetaData::into_thrift` (lines 142-158). -/
def FileMetaData.into_thrift (m : FileMetaData) : TFileMetaData :=
  TFileMetaData.mk m.version m.schema_descr.into_thrift (usize_as_i64 m.num_rows)
    (m.row_groups.map (fun v => v.into_thrift)) m.key_value_metadata
    m.created_by none none none

/-! ## Characterization lemmas -/

theorem rowGroups_mapM_loop (sd : SchemaDescriptor) (l : List RowGroup)
    (acc : List RowGroupMetaData) :
    List.mapM.loop (fun rg => RowGroupMetaData.try_from_thrift sd rg) l acc =
      Except.ok (acc.reverse ++
        l.map (fun rg => RowGroupMetaData.mk rg.num_rows rg.total_byte_size)) := by
  induction l generalizing acc with
  | nil =>
      show Except.ok acc.reverse = _
      simp
  | cons x xs ih =>
      show List.mapM.loop _ xs (RowGroupMetaData.mk x.num_rows x.total_byte_size :: acc) = _
      rw [ih]
      simp

theorem rowGroups_mapM_ok (sd : SchemaDescriptor) (l : List RowGroup) :
    l.mapM (fun rg => RowGroupMetaData.try_from_thrift sd rg) =
      Except.ok (l.map (fun rg => RowGroupMetaData.mk rg.num_rows rg.total_byte_size)) := by
  simp [List.mapM, rowGroups_mapM_loop]

theorem try_from_thrift_eq (t : TFileMetaData) :
    FileMetaData.try_from_thrift t =
      if t.num_rows < 0 then Except.error Error.rowCountRange
      else Except.ok (FileMetaData.mk t.version t.num_rows.toNat t.created_by
        (t.row_groups.map (fun rg => RowGroupMetaData.mk rg.num_rows rg.total_byte_size))
        t.key_value_metadata (SchemaDescriptor.mk t.schema)
        (t.column_orders.map
          (fun orders => parse_column_orders orders (SchemaDescriptor.mk t.schema)))) := by
  unfold FileMetaData.try_from_thrift
  simp [SchemaDescriptor.try_from_thrift, List.mapM, rowGroups_mapM_loop]

theorem TColumnOrder.eq_TYPEORDER (t : TColumnOrder) : t = TColumnOrder.TYPEORDER := by
  cases t
  rfl

theorem parse_column_orders_mem (orders : List TColumnOrder) (sd : SchemaDescriptor)
    (co : ColumnOrder) (h : co ∈ parse_column_orders orders sd) :
    ∃ s, co = ColumnOrder.TypeDefinedOrder s := by
  unfold parse_column_orders at h
  rw [List.mem_map] at h
  obtain ⟨p, _, hp⟩ := h
  cases p.2
  exact ⟨_, hp.symm⟩

/-! ## Claim theorems -/

/-- C3: `parse_column_orders` produces a sequence whose length is the
minimum of the leaf-column count and the wire-tag count; entry `i` exists
exactly when both inputs have an entry at position `i`, and is then the
type-defined classification derived from leaf column `i`; in particular a
tag sequence as long as the column list yields one classification per
column. -/
theorem C3_parse_column_orders_lockstep (orders : List TColumnOrder)
    (sd : SchemaDescriptor) :
    (parse_column_orders orders sd).length = min sd.columns.length orders.length ∧
    (orders.length = sd.columns.length →
      (parse_column_orders orders sd).length = sd.columns.length) ∧
    ∀ (i : Nat) (z : ColumnOrder), (parse_column_orders orders sd)[i]? = some z ↔
      ∃ c, sd.columns[i]? = some c ∧ orders[i]? = some TColumnOrder.TYPEORDER ∧
        z = ColumnOrder.TypeDefinedOrder (get_sort_order
          c.descriptor.primitive_type.logical_type
          c.descriptor.primitive_type.converted_type
          c.descriptor.primitive_type.physical_type) := by
  refine ⟨?_, ?_, ?_⟩
  · simp [parse_column_orders]
  · intro h
    simp [parse_column_orders, h]
  · intro i z
    unfold parse_column_orders
    rw [List.getElem?_map]
    rw [Option.map_eq_some']
    constructor
    · rintro ⟨p, hp, hz⟩
      rw [List.getElem?_zip_eq_some] at hp
      have hp2 := p.2.eq_TYPEORDER
      rw [hp2] at hz hp
      exact ⟨p.1, hp.1, hp.2, hz.symm⟩
    · rintro ⟨c, hc, ho, hz⟩
      refine ⟨(c, TColumnOrder.TYPEORDER), ?_, ?_⟩
      · rw [List.getElem?_zip_eq_some]
        exact ⟨hc, ho⟩
      · exact hz.symm

/-- Witness for C3 on a one-column schema with one wire tag: the length
is the minimum of the two input lengths and equals the leaf-column
count. -/
theorem C3_witness :
    (parse_column_orders [TColumnOrder.TYPEORDER]
        (SchemaDescriptor.mk [PrimitiveType.mk none none PhysicalType.int32])).length =
      min (SchemaDescriptor.mk
        [PrimitiveType.mk none none PhysicalType.int32]).columns.length 1 ∧
    (parse_column_orders [TColumnOrder.TYPEORDER]
        (SchemaDescriptor.mk [PrimitiveType.mk none none PhysicalType.int32])).length =
      (SchemaDescriptor.mk
        [PrimitiveType.mk none none PhysicalType.int32]).columns.length :=
  ⟨(C3_parse_column_orders_lockstep [TColumnOrder.TYPEORDER]
      (SchemaDescriptor.mk [PrimitiveType.mk none none PhysicalType.int32])).1,
   (C3_parse_column_orders_lockstep [TColumnOrder.TYPEORDER]
      (SchemaDescriptor.mk [PrimitiveType.mk none none PhysicalType.int32])).2.1 rfl⟩

/-- C5: when `column_orders` is absent, `column_order i` returns
`Undefined` for every index `i`, without failing. -/
theorem C5_column_order_absent (m : FileMetaData) (h : m.column_orders = none)
    (i : Nat) : m.column_order i = some ColumnOrder.Undefined := by
  simp [FileMetaData.column_order, h]

def ptInt32 : PrimitiveType := PrimitiveType.mk none none PhysicalType.int32

def mdNoOrders : FileMetaData :=
  FileMetaData.mk 1 0 none [] none (SchemaDescriptor.mk [ptInt32]) none

/-- Witness for C5 on a single-column schema, at `i = 0` and at an index
beyond the leaf-column count. -/
theorem C5_witness :
    mdNoOrders.column_orders = none ∧
    mdNoOrders.column_order 0 = some ColumnOrder.Undefined ∧
    mdNoOrders.column_order 7 = some ColumnOrder.Undefined :=
  ⟨rfl, C5_column_order_absent mdNoOrders rfl 0, C5_column_order_absent mdNoOrders rfl 7⟩

/-- C6: when `column_orders` is present with length `n`, `column_order i`
returns the `i`-th stored element for `i < n` (the indexing never takes
its out-of-bounds branch), and for `i ≥ n` it is the index panic
(modelled as `none`), never a wrap-around or a default ordering. -/
theorem C6_column_order_present (m : FileMetaData) (l : List ColumnOrder)
    (h : m.column_orders = some l) (i : Nat) :
    (∀ z, l[i]? = some z → m.column_order i = some z) ∧
    (l.length ≤ i → m.column_order i = none) := by
  constructor
  · intro z hz
    simp [FileMetaData.column_order, h, hz]
  · intro hle
    simp [FileMetaData.column_order, h, List.getElem?_eq_none hle]

def mdOneOrder : FileMetaData :=
  FileMetaData.mk 1 0 none [] none (SchemaDescriptor.mk [ptInt32])
    (some [ColumnOrder.TypeDefinedOrder SortOrder.signed])

/-- Witness for C6: in bounds the stored element is returned, out of
bounds the call is the modelled index panic. -/
theorem C6_witness :
    mdOneOrder.column_orders = some [ColumnOrder.TypeDefinedOrder SortOrder.signed] ∧
    mdOneOrder.column_order 0 = some (ColumnOrder.TypeDefinedOrder SortOrder.signed) ∧
    mdOneOrder.column_order 1 = none :=
  ⟨rfl,
   (C6_column_order_present mdOneOrder [ColumnOrder.TypeDefinedOrder SortOrder.signed]
      rfl 0).1 (ColumnOrder.TypeDefinedOrder SortOrder.signed) rfl,
   (C6_column_order_present mdOneOrder [ColumnOrder.TypeDefinedOrder SortOrder.signed]
      rfl 1).2 (by decide)⟩

/-- C8: for every native `FileMetaData`, the wire footer produced by
`into_thrift` has absent `column_orders`, `encryption_algorithm` and
`footer_signing_key_metadata`. -/
theorem C8_into_thrift_absent_fields (m : FileMetaData) :
    (FileMetaData.into_thrift m).column_orders = none ∧
    (FileMetaData.into_thrift m).encryption_algorithm = none ∧
    (FileMetaData.into_thrift m).footer_signing_key_metadata = none :=
  ⟨rfl, rfl, rfl⟩

/-- C4: reading a wire footer with negative `num_rows` fails with the
row-count range error, and one with `num_rows = 0` (all other conversions
succeeding) yields a `FileMetaData` with `num_rows = 0`. -/
theorem C4_num_rows_range :
    (∀ t : TFileMetaData, t.num_rows < 0 →
        FileMetaData.try_from_thrift t = Except.error Error.rowCountRange) ∧
    (∀ t : TFileMetaData, t.num_rows = 0 →
        ∃ m, FileMetaData.try_from_thrift t = Except.ok m ∧ m.num_rows = 0) := by
  constructor
  · intro t ht
    rw [try_from_thrift_eq]
    simp [ht]
  · intro t ht
    rw [try_from_thrift_eq]
    simp [ht]

def tfmdMinusOne : TFileMetaData :=
  TFileMetaData.mk 1 [ptInt32] (-1) [] none none none none none

def tfmdZero : TFileMetaData :=
  TFileMetaData.mk 1 [ptInt32] 0 [] none none none none none

/-- Witness for C4 at `num_rows = -1` and `num_rows = 0`. -/
theorem C4_witness :
    FileMetaData.try_from_thrift tfmdMinusOne = Except.error Error.rowCountRange ∧
    ∃ m, FileMetaData.try_from_thrift tfmdZero = Except.ok m ∧ m.num_rows = 0 :=
  ⟨C4_num_rows_range.1 tfmdMinusOne (by decide),
   C4_num_rows_range.2 tfmdZero rfl⟩

/-- C7: `key_value_metadata` and `created_by` pass through both
conversion directions unchanged. -/
theorem C7_key_value_created_by_pass_through :
    (∀ (t : TFileMetaData) (m : FileMetaData),
        FileMetaData.try_from_thrift t = Except.ok m →
        m.key_value_metadata = t.key_value_metadata ∧ m.created_by = t.created_by) ∧
    (∀ m : FileMetaData,
        (FileMetaData.into_thrift m).key_value_metadata = m.key_value_metadata ∧
        (FileMetaData.into_thrift m).created_by = m.created_by) := by
  constructor
  · intro t m h
    rw [try_from_thrift_eq] at h
    split at h
    · exact absurd h (by simp)
    · rw [Except.ok.injEq] at h
      subst h
      exact ⟨rfl, rfl⟩
  · intro m
    exact ⟨rfl, rfl⟩

def kvExample : List KeyValue :=
  [KeyValue.mk "a" (some "1"), KeyValue.mk "b" none]

def tfmdKv : TFileMetaData :=
  TFileMetaData.mk 1 [ptInt32] 0 [] (some kvExample) (some "writer 1.0") none none none

def mdKv : FileMetaData :=
  FileMetaData.mk 1 0 (some "writer 1.0") [] (some kvExample)
    (SchemaDescriptor.mk [ptInt32]) none

/-- Witness for C7: the spec's example key/value sequence
`[("a", Some("1")), ("b", None)]` and a `created_by` string survive a
read (`tfmdKv` converts to `mdKv`) followed by a write. -/
theorem C7_witness :
    mdKv.key_value_metadata = tfmdKv.key_value_metadata ∧
    mdKv.created_by = tfmdKv.created_by ∧
    (FileMetaData.into_thrift mdKv).key_value_metadata = mdKv.key_value_metadata ∧
    (FileMetaData.into_thrift mdKv).created_by = mdKv.created_by :=
  ⟨(C7_key_value_created_by_pass_through.1 tfmdKv mdKv rfl).1,
   (C7_key_value_created_by_pass_through.1 tfmdKv mdKv rfl).2,
   (C7_key_value_created_by_pass_through.2 mdKv).1,
   (C7_key_value_created_by_pass_through.2 mdKv).2⟩

/-- C10: every classification produced by `parse_column_orders` is a
`TypeDefinedOrder`; hence a `FileMetaData` built by `try_from_thrift`
with `column_orders` present never stores the `Undefined` variant. -/
theorem C10_no_undefined_in_parsed_orders :
    (∀ (orders : List TColumnOrder) (sd : SchemaDescriptor)
        (co : ColumnOrder), co ∈ parse_column_orders orders sd →
        ∃ s, co = ColumnOrder.TypeDefinedOrder s) ∧
    (∀ (t : TFileMetaData) (m : FileMetaData) (l : List ColumnOrder),
        FileMetaData.try_from_thrift t = Except.ok m → m.column_orders = some l →
        ColumnOrder.Undefined ∉ l) := by
  constructor
  · exact parse_column_orders_mem
  · intro t m l h hl hmem
    rw [try_from_thrift_eq] at h
    split at h
    · exact absurd h (by simp)
    · rw [Except.ok.injEq] at h
      subst h
      simp only [Option.map_eq_some'] at hl
      obtain ⟨orders, _, horders⟩ := hl
      obtain ⟨s, hs⟩ := parse_column_orders_mem orders _ ColumnOrder.Undefined (horders ▸ hmem)
      cases hs

def tfmdOrders : TFileMetaData :=
  TFileMetaData.mk 1 [ptInt32] 0 [] none none (some [TColumnOrder.TYPEORDER]) none none

def mdOneSigned : FileMetaData :=
  FileMetaData.mk 1 0 none [] none (SchemaDescriptor.mk [ptInt32])
    (some [ColumnOrder.TypeDefinedOrder SortOrder.signed])

/-- Witness for C10 on a one-column footer carrying one wire order tag:
`tfmdOrders` converts to `mdOneSigned`, whose stored orders contain no
`Undefined`. -/
theorem C10_witness :
    (∃ s, ColumnOrder.TypeDefinedOrder SortOrder.signed =
        ColumnOrder.TypeDefinedOrder s) ∧
    ColumnOrder.Undefined ∉ [ColumnOrder.TypeDefinedOrder SortOrder.signed] :=
  ⟨C10_no_undefined_in_parsed_orders.1 [TColumnOrder.TYPEORDER]
      (SchemaDescriptor.mk [ptInt32]) (ColumnOrder.TypeDefinedOrder SortOrder.signed)
      (by decide),
   C10_no_undefined_in_parsed_orders.2 tfmdOrders mdOneSigned
      [ColumnOrder.TypeDefinedOrder SortOrder.signed] rfl rfl⟩

/-- C2 as stated is false: a wire footer whose column-order tag list is
shorter than the leaf-column count (here: one leaf column, zero tags)
is accepted, and the resulting `column_orders` has length 0, not 1 —
the produced `FileMetaData` violates the §3 length invariant. -/
theorem C2_counterexample :
    FileMetaData.try_from_thrift
        (TFileMetaData.mk 1 [ptInt32] 0 [] none none (some []) none none) =
      Except.ok (FileMetaData.mk 1 0 none [] none
        (SchemaDescriptor.mk [ptInt32]) (some [])) ∧
    ¬ (FileMetaData.mk 1 0 none [] none
        (SchemaDescriptor.mk [ptInt32]) (some [])).valid := by
  constructor
  · rfl
  · decide

/-- C2 amended: when `try_from_thrift` succeeds and the wire footer
carries order tags, the resulting `column_orders` is present with length
`min (leaf-column count) (tag count)`; it equals the leaf-column count
whenever the tag list is at least as long as the column list (in
particular when it is longer), but is shorter when the tag list is
shorter. -/
theorem C2_column_orders_length (t : TFileMetaData) (m : FileMetaData)
    (orders : List TColumnOrder)
    (h : FileMetaData.try_from_thrift t = Except.ok m)
    (hco : t.column_orders = some orders) :
    ∃ l, m.column_orders = some l ∧
      l.length = min m.schema_descr.columns.length orders.length ∧
      (m.schema_descr.columns.length ≤ orders.length →
        l.length = m.schema_descr.columns.length) := by
  rw [try_from_thrift_eq] at h
  split at h
  · exact absurd h (by simp)
  · rw [Except.ok.injEq] at h
    subst h
    refine ⟨parse_column_orders orders (SchemaDescriptor.mk t.schema), ?_, ?_, ?_⟩
    · simp [hco]
    · simp [parse_column_orders]
    · intro hle
      simp [parse_column_orders, Nat.min_eq_left hle]

def tfmdTwoTags : TFileMetaData :=
  TFileMetaData.mk 1 [ptInt32] 0 [] none none
    (some [TColumnOrder.TYPEORDER, TColumnOrder.TYPEORDER]) none none

/-- Witness for the amended C2: one leaf column with two wire tags
(`tfmdTwoTags` converts to `mdOneSigned`) gives one classification,
matching the leaf-column count. -/
theorem C2_witness :
    ∃ l, mdOneSigned.column_orders = some l ∧
      l.length = min mdOneSigned.schema_descr.columns.length 2 ∧
      (mdOneSigned.schema_descr.columns.length ≤ 2 →
        l.length = mdOneSigned.schema_descr.columns.length) :=
  C2_column_orders_length tfmdTwoTags mdOneSigned
    [TColumnOrder.TYPEORDER, TColumnOrder.TYPEORDER] rfl rfl

def mdBig : FileMetaData :=
  FileMetaData.mk 0 (2 ^ 63) none [] none (SchemaDescriptor.mk []) none

/-- C9 as stated is false: `self.num_rows as i64` is a same-width
signed reinterpretation of the 64-bit `usize`, not a widening, so at
`num_rows = 2 ^ 63` the wire footer records `-(2 ^ 63)`, not `2 ^ 63`. -/
theorem C9_counterexample :
    (FileMetaData.into_thrift mdBig).num_rows = -(2 ^ 63) ∧
    ((2 ^ 63 : Nat) : Int) ≠ -(2 ^ 63) := by
  constructor
  · decide
  · decide

/-- C9 amended: for every `FileMetaData` whose `num_rows` is below
`2 ^ 63` (hence representable in the wire signed 64-bit type), the wire
footer's `num_rows` equals `num_rows` as a mathematical integer. -/
theorem usize_as_i64_of_lt (n : Nat) (h : n < 2 ^ 63) : usize_as_i64 n = (n : Int) := by
  have h64 : n % 2 ^ 64 = n := Nat.mod_eq_of_lt (lt_trans h (by norm_num))
  have hlt : n % 2 ^ 64 < 2 ^ 63 := by
    rw [h64]
    exact h
  unfold usize_as_i64
  rw [if_pos hlt, h64]

theorem C9_num_rows_cast (m : FileMetaData) (h : m.num_rows < 2 ^ 63) :
    (FileMetaData.into_thrift m).num_rows = (m.num_rows : Int) :=
  usize_as_i64_of_lt m.num_rows h

/-- Witness for the amended C9 at `num_rows = 5`. -/
theorem C9_witness :
    (FileMetaData.into_thrift
        (FileMetaData.mk 0 5 none [] none (SchemaDescriptor.mk []) none)).num_rows =
      ((5 : Nat) : Int) :=
  C9_num_rows_cast (FileMetaData.mk 0 5 none [] none (SchemaDescriptor.mk []) none)
    (by norm_num)

theorem map_into_mk (l : List RowGroupMetaData) :
    (l.map RowGroupMetaData.into_thrift).map
        (fun rg => RowGroupMetaData.mk rg.num_rows rg.total_byte_size) = l := by
  induction l with
  | nil => rfl
  | cons x xs ih => simp [ih, RowGroupMetaData.into_thrift]

/-- C1 as stated is false: a `FileMetaData` satisfying the spec's §3
invariant, with `column_orders = none` and the representable `usize`
row count `2 ^ 63`, does not round-trip — the write path wraps the row
count to a negative wire value and the read path then fails with the
range error. -/
theorem C1_counterexample :
    mdBig.valid ∧ mdBig.column_orders = none ∧
    FileMetaData.try_from_thrift (FileMetaData.into_thrift mdBig) =
      Except.error Error.rowCountRange := by
  refine ⟨trivial, rfl, ?_⟩
  rfl

/-- C1 amended: for every valid `FileMetaData` with `column_orders = none`
whose `num_rows` is below `2 ^ 63` (representable in the wire signed
64-bit row count), converting to wire form and back succeeds and yields
a `FileMetaData` equal to the original in every field, with
`column_orders` remaining `none` on both sides. -/
theorem C1_round_trip (m : FileMetaData) (hv : m.valid)
    (hco : m.column_orders = none) (hnr : m.num_rows < 2 ^ 63) :
    FileMetaData.try_from_thrift (FileMetaData.into_thrift m) = Except.ok m ∧
    (FileMetaData.into_thrift m).column_orders = none := by
  refine ⟨?_, rfl⟩
  obtain ⟨v, nr, cb, rgs, kvm, sd, co⟩ := m
  change co = none at hco
  subst hco
  change nr < 2 ^ 63 at hnr
  rw [try_from_thrift_eq]
  simp only [FileMetaData.into_thrift, usize_as_i64_of_lt nr hnr,
    SchemaDescriptor.into_thrift, map_into_mk, Int.toNat_natCast, Option.map_none']
  rw [if_neg (Int.not_lt.mpr (Int.natCast_nonneg nr))]

/-- Witness for the amended C1 on a one-column `FileMetaData` with no
column orders. -/
theorem C1_witness :
    FileMetaData.try_from_thrift (FileMetaData.into_thrift mdNoOrders) =
      Except.ok mdNoOrders ∧
    (FileMetaData.into_thrift mdNoOrders).column_orders = none :=
  C1_round_trip mdNoOrders trivial rfl (by decide)
